import Mathlib

/-!
Shallow embedding of `0x02-redis_basic/exercise.py`: a `Cache` facade over a
Redis-like key-value backend.  The backend state is a finite map from string
keys to byte sequences (bytes modelled as `List Nat`, each entry a byte value).
The facade operations are translated from the Python source; the backend
primitives (`set`, `get`, `incr`, `flushdb`) and the byte-level encodings the
backend client applies are modelled from the spec's description of the external
backend, since the backend is an external dependency, not part of the
repository.
-/

namespace RedisBasic

/-- A byte sequence, each element intended to be `< 256`. -/
abbrev Bytes := List Nat

/-- Is the byte an ASCII decimal digit? -/
def isDigitByte (b : Nat) : Prop := 48 ≤ b ∧ b ≤ 57

instance (b : Nat) : Decidable (isDigitByte b) := by unfold isDigitByte; infer_instance

/-- Little-endian decimal digit bytes of `n`, with `fuel` bounding recursion
depth (`n ≤ fuel` suffices). -/
def natDigitsRev : Nat → Nat → List Nat
  | 0, _ => []
  | fuel + 1, n => if n = 0 then [] else (n % 10 + 48) :: natDigitsRev fuel (n / 10)

/-- Canonical decimal text encoding of a natural number, as bytes
(e.g. `42 ↦ "42"`, `0 ↦ "0"`). -/
def natToBytes (n : Nat) : Bytes :=
  if n = 0 then [48] else (natDigitsRev n n).reverse

/-- Modelled from the spec: the backend client writes integers as their
canonical text representation; this is that encoding (decimal, `-` sign). -/
def intToBytes (m : Int) : Bytes :=
  if m < 0 then 45 :: natToBytes m.natAbs else natToBytes m.toNat

/-- Value of a nonempty all-digit byte string, read in base 10; `none` when
empty or containing a non-digit byte. -/
def digitsOnlyVal (l : Bytes) : Option Nat :=
  if l = [] then none
  else if l.all (fun b => decide (isDigitByte b)) then
    some (l.foldl (fun a b => a * 10 + (b - 48)) 0)
  else none

/-- Modelled from the spec: how the backend reads a stored byte string back as
an integer (used by its `increment` primitive): an optional `-` sign followed
by decimal digits. -/
def redisParseInt (b : Bytes) : Option Int :=
  match b with
  | [] => none
  | c :: rest =>
    if c = 45 then (digitsOnlyVal rest).map (fun n => -(n : Int))
    else (digitsOnlyVal (c :: rest)).map (fun n => (n : Int))

/-- UTF-8 encoding of a single code point (as in the UTF-8 standard, which the
backend client uses for text values per the spec). -/
def utf8EncodeChar (c : Nat) : List Nat :=
  if c < 128 then [c]
  else if c < 2048 then [192 + c / 64, 128 + c % 64]
  else if c < 65536 then [224 + c / 4096, 128 + c / 64 % 64, 128 + c % 64]
  else [240 + c / 262144, 128 + c / 4096 % 64, 128 + c / 64 % 64, 128 + c % 64]

/-- Modelled from the spec: text values are written as their UTF-8 bytes. -/
def strToBytes (s : String) : Bytes :=
  (s.data.map (fun c => utf8EncodeChar c.toNat)).flatten

/-- Strict UTF-8 decoding of a byte list into code points: rejects stray
continuation bytes, overlong forms, surrogates, and values above `0x10FFFF`,
as Python's strict `bytes.decode("utf-8")` does. -/
def utf8DecodeAux : List Nat → Option (List Char)
  | [] => some []
  | b :: rest =>
    if b < 128 then
      (utf8DecodeAux rest).map (fun cs => Char.ofNat b :: cs)
    else if b < 194 then none
    else if b < 224 then
      match rest with
      | [] => none
      | b2 :: rest2 =>
        if 128 ≤ b2 ∧ b2 < 192 then
          (utf8DecodeAux rest2).map
            (fun cs => Char.ofNat ((b - 192) * 64 + (b2 - 128)) :: cs)
        else none
    else if b < 240 then
      match rest with
      | b2 :: b3 :: rest3 =>
        if 128 ≤ b2 ∧ b2 < 192 ∧ 128 ≤ b3 ∧ b3 < 192 then
          let cp := (b - 224) * 4096 + (b2 - 128) * 64 + (b3 - 128)
          if 2048 ≤ cp ∧ ¬ (55296 ≤ cp ∧ cp < 57344) then
            (utf8DecodeAux rest3).map (fun cs => Char.ofNat cp :: cs)
          else none
        else none
      | _ => none
    else if b < 245 then
      match rest with
      | b2 :: b3 :: b4 :: rest4 =>
        if 128 ≤ b2 ∧ b2 < 192 ∧ 128 ≤ b3 ∧ b3 < 192 ∧ 128 ≤ b4 ∧ b4 < 192 then
          let cp := (b - 240) * 262144 + (b2 - 128) * 4096 + (b3 - 128) * 64 + (b4 - 128)
          if 65536 ≤ cp ∧ cp < 1114112 then
            (utf8DecodeAux rest4).map (fun cs => Char.ofNat cp :: cs)
          else none
        else none
      | _ => none
    else none

/-- Errors a decoding function passed to `Cache.get` can raise, mirroring the
Python exceptions: `UnicodeDecodeError` from `bytes.decode("utf-8")` and
`ValueError` from `int(...)`. -/
inductive PyError where
  | unicodeDecodeError
  | valueError
deriving DecidableEq

/-- The decoder `get_str` passes to `get`: the Python lambda
`lambda d: d.decode("utf-8")`; raises on bytes that are not valid UTF-8. -/
def utf8DecoderFn (d : Bytes) : Except PyError String :=
  match utf8DecodeAux d with
  | some cs => Except.ok (String.mk cs)
  | none => Except.error PyError.unicodeDecodeError

/-- Python `int()` digit run: nonempty decimal digits, with single underscores
allowed between digits (accumulator-passing). -/
def pyDigitsCore : List Nat → Nat → Option Nat
  | [], acc => some acc
  | [b], acc => if isDigitByte b then some (acc * 10 + (b - 48)) else none
  | b :: c :: rest, acc =>
    if isDigitByte b then pyDigitsCore (c :: rest) (acc * 10 + (b - 48))
    else if b = 95 ∧ isDigitByte c then pyDigitsCore rest (acc * 10 + (c - 48))
    else none

/-- Entry point for a Python `int()` digit run: the first byte must be a
digit. -/
def pyDigits : List Nat → Option Nat
  | [] => none
  | b :: rest => if isDigitByte b then pyDigitsCore rest (b - 48) else none

/-- Is the byte ASCII whitespace (stripped by Python's `int()` on bytes)? -/
def isWsByte (b : Nat) : Prop := b = 32 ∨ (9 ≤ b ∧ b ≤ 13)

instance (b : Nat) : Decidable (isWsByte b) := by unfold isWsByte; infer_instance

/-- Python `int(d)` applied to a byte string: strips ASCII whitespace, accepts
an optional sign, then a digit run; `none` models the raised `ValueError`. -/
def pyIntParse (b : Bytes) : Option Int :=
  let core :=
    (((b.dropWhile (fun x => decide (isWsByte x))).reverse.dropWhile
        (fun x => decide (isWsByte x))).reverse)
  match core with
  | 43 :: rest => (pyDigits rest).map (fun n => (n : Int))
  | 45 :: rest => (pyDigits rest).map (fun n => -(n : Int))
  | l => (pyDigits l).map (fun n => (n : Int))

/-- The decoder `get_int` passes to `get`: the Python lambda
`lambda d: int(d)`; raises `ValueError` on bytes that are not a valid integer
literal. -/
def intDecoderFn (d : Bytes) : Except PyError Int :=
  match pyIntParse d with
  | some n => Except.ok n
  | none => Except.error PyError.valueError

/-- A Python float, identified by its canonical text representation (its
`repr`), which per the spec is exactly what the backend client writes for
float values. -/
structure PyFloat where
  text : String
deriving DecidableEq

/-- The data types `Cache.store` accepts: `Union[str, bytes, int, float]`. -/
inductive Value where
  | str (s : String)
  | bytes (b : Bytes)
  | int (n : Int)
  | float (f : PyFloat)
deriving DecidableEq

/-- Modelled from the spec: the backend client's encoding of a stored value to
bytes — text as UTF-8, bytes verbatim, integers and floats as their canonical
text representation. -/
def encodeValue : Value → Bytes
  | Value.str s => strToBytes s
  | Value.bytes b => b
  | Value.int n => intToBytes n
  | Value.float f => strToBytes f.text

/-- The backend namespace state: what byte string, if any, each key holds. -/
def RedisState := String → Option Bytes

/-- The empty backend namespace. -/
def initialState : RedisState := fun _ => none

/-- Modelled from the spec: the backend `set(key, value)` primitive. -/
def redisSet (st : RedisState) (k : String) (v : Bytes) : RedisState :=
  fun q => if q = k then some v else st q

/-- Modelled from the spec: the backend `get(key) → bytes | absent`
primitive. -/
def redisGet (st : RedisState) (k : String) : Option Bytes := st k

/-- The integer value the backend's `increment` primitive sees at a key: an
absent key counts as 0. -/
def currentCount (st : RedisState) (k : String) : Int :=
  match st k with
  | none => 0
  | some b => (redisParseInt b).getD 0

/-- Modelled from the spec: the backend `increment(counter-name) → new-count`
primitive — reads the key's current integer value (absent = 0), adds one, and
stores the decimal text of the result. -/
def redisIncr (st : RedisState) (k : String) : RedisState :=
  redisSet st k (intToBytes (currentCount st k + 1))

/-- Modelled from the spec: the backend `flush-namespace()` primitive — wipes
every key. -/
def redisFlushdb (_ : RedisState) : RedisState := fun _ => none

/-- One backend command a facade operation can issue. -/
inductive BackendOp where
  | set (key : String) (val : Bytes)
  | incr (key : String)
  | read (key : String)
  | flush
deriving DecidableEq

/-- State effect of one backend command (`read` does not modify the
backend). -/
def runOp (st : RedisState) : BackendOp → RedisState
  | BackendOp.set k v => redisSet st k v
  | BackendOp.incr k => redisIncr st k
  | BackendOp.read _ => st
  | BackendOp.flush => redisFlushdb st

/-- State effect of a command sequence, first command first. -/
def runOps (ops : List BackendOp) (st : RedisState) : RedisState :=
  ops.foldl runOp st

/-- The counter key used by the `count_calls` decorator on `Cache.store`:
`method.__qualname__`. -/
def storeQualname : String := "Cache.store"

/-- The backend commands one `store(data)` call issues, in order: the
`count_calls` wrapper first runs `self._redis.incr(method.__qualname__)`, then
the wrapped body runs `self._redis.set(key, data)` with the fresh key. -/
def Cache.storeOps (key : String) (data : Value) : List BackendOp :=
  [BackendOp.incr storeQualname, BackendOp.set key (encodeValue data)]

/-- `Cache.store`: the fresh random key drawn by `str(uuid.uuid4())` is passed
in as `key` (the draw is the caller-visible nondeterminism); the call issues
its backend commands and returns the key. -/
def Cache.store (key : String) (data : Value) (st : RedisState) :
    String × RedisState :=
  (key, runOps (Cache.storeOps key data) st)

/-- `Cache.__init__`: connects and runs `flushdb`, erasing the namespace. -/
def Cache.construct (st : RedisState) : RedisState := redisFlushdb st

/-- The backend commands one `get` call issues: a single backend `get`. -/
def Cache.getOps (key : String) : List BackendOp := [BackendOp.read key]

/-- `Cache.get` with no conversion function: returns the raw bytes, or `none`
when the key is absent. -/
def Cache.get (st : RedisState) (key : String) : Option Bytes :=
  redisGet st key

/-- `Cache.get` with a conversion function `fn`: `none` from the backend is
returned as the absent sentinel before `fn` is consulted; otherwise `fn` is
applied and its outcome (value or raised error) is passed through unchanged. -/
def Cache.getFn {α : Type} (st : RedisState) (key : String)
    (fn : Bytes → Except PyError α) : Except PyError (Option α) :=
  match redisGet st key with
  | none => Except.ok none
  | some d => (fn d).map some

/-- `Cache.get_str`: `self.get(key, fn=lambda d: d.decode("utf-8"))`. -/
def Cache.getStr (st : RedisState) (key : String) : Except PyError (Option String) :=
  Cache.getFn st key utf8DecoderFn

/-- `Cache.get_int`: `self.get(key, fn=lambda d: int(d))`. -/
def Cache.getInt (st : RedisState) (key : String) : Except PyError (Option Int) :=
  Cache.getFn st key intDecoderFn

/-- The backend commands a `get_str` call issues: it delegates to `get`. -/
def Cache.getStrOps (key : String) : List BackendOp := Cache.getOps key

/-- The backend commands a `get_int` call issues: it delegates to `get`. -/
def Cache.getIntOps (key : String) : List BackendOp := Cache.getOps key

/-- A sequence of `store` calls: each pair is (fresh key draw, value). -/
def runStores (ps : List (String × Value)) (st : RedisState) : RedisState :=
  ps.foldl (fun s p => (Cache.store p.1 p.2 s).2) st

/-- The digit bytes produced by `natDigitsRev` evaluate back to `n` under the
base-10 fold, are all ASCII digits, and are nonempty for nonzero `n`. -/
lemma natDigitsRev_spec (fuel : Nat) : ∀ n : Nat, n ≤ fuel →
    List.foldr (fun d a => a * 10 + (d - 48)) 0 (natDigitsRev fuel n) = n
      ∧ (∀ d ∈ natDigitsRev fuel n, isDigitByte d)
      ∧ (n ≠ 0 → natDigitsRev fuel n ≠ []) := by
  induction fuel with
  | zero =>
    intro n h
    have hn : n = 0 := by omega
    subst hn
    simp [natDigitsRev]
  | succ fuel ih =>
    intro n h
    by_cases hn : n = 0
    · subst hn; simp [natDigitsRev]
    · have hdiv : n / 10 ≤ fuel := by
        have : n / 10 < n := Nat.div_lt_self (Nat.pos_of_ne_zero hn) (by norm_num)
        omega
      obtain ⟨h1, h2, h3⟩ := ih (n / 10) hdiv
      refine ⟨?_, ?_, ?_⟩
      · simp only [natDigitsRev, if_neg hn, List.foldr_cons, h1]
        omega
      · intro d hd
        simp only [natDigitsRev, if_neg hn, List.mem_cons] at hd
        rcases hd with hd | hd
        · subst hd
          constructor <;> omega
        · exact h2 d hd
      · intro _
        simp [natDigitsRev, hn]

/-- Reading back the canonical decimal encoding of `n` yields `n`. -/
lemma digitsOnlyVal_natToBytes (n : Nat) : digitsOnlyVal (natToBytes n) = some n := by
  by_cases hn : n = 0
  · subst hn; decide
  · obtain ⟨h1, h2, h3⟩ := natDigitsRev_spec n n le_rfl
    have hne : (natDigitsRev n n).reverse ≠ [] := by
      simpa using h3 hn
    have hall : ((natDigitsRev n n).reverse.all (fun b => decide (isDigitByte b))) = true := by
      simp only [List.all_eq_true, List.mem_reverse, decide_eq_true_eq]
      exact h2
    simp only [natToBytes, if_neg hn, digitsOnlyVal, if_neg hne, hall, if_true,
      List.foldl_reverse]
    exact congrArg some h1

/-- The canonical decimal encoding of a natural number starts with an ASCII
digit. -/
lemma natToBytes_cons (n : Nat) : ∃ c rest, natToBytes n = c :: rest ∧ isDigitByte c := by
  by_cases hn : n = 0
  · subst hn
    exact ⟨48, [], rfl, by constructor <;> omega⟩
  · obtain ⟨h1, h2, h3⟩ := natDigitsRev_spec n n le_rfl
    have hne : (natDigitsRev n n).reverse ≠ [] := by simpa using h3 hn
    cases hr : (natDigitsRev n n).reverse with
    | nil => exact absurd hr hne
    | cons c rest =>
      refine ⟨c, rest, ?_, ?_⟩
      · rw [natToBytes, if_neg hn, hr]
      · have hm : c ∈ (natDigitsRev n n).reverse := by
          rw [hr]; exact List.mem_cons_self _ _
        exact h2 c (List.mem_reverse.mp hm)

/-- Unfolding of the strict integer parse at a leading minus sign. -/
lemma redisParseInt_cons_sign (rest : Bytes) :
    redisParseInt (45 :: rest) = (digitsOnlyVal rest).map (fun n => -(n : Int)) := rfl

/-- Unfolding of the strict integer parse at a leading non-sign byte. -/
lemma redisParseInt_cons_other (c : Nat) (rest : Bytes) (h : ¬ c = 45) :
    redisParseInt (c :: rest) = (digitsOnlyVal (c :: rest)).map (fun n => (n : Int)) := by
  simp [redisParseInt, h]

/-- The backend reads back exactly the integer it wrote: the strict integer
parse is a left inverse of the canonical text encoding. -/
lemma redisParseInt_intToBytes (m : Int) : redisParseInt (intToBytes m) = some m := by
  by_cases hm : m < 0
  · have hb : intToBytes m = 45 :: natToBytes m.natAbs := by
      rw [intToBytes, if_pos hm]
    rw [hb, redisParseInt_cons_sign, digitsOnlyVal_natToBytes]
    show some (-(m.natAbs : Int)) = some m
    exact congrArg some (by omega)
  · obtain ⟨c, rest, hcr, hdig⟩ := natToBytes_cons m.toNat
    have hb : intToBytes m = c :: rest := by
      rw [intToBytes, if_neg hm, hcr]
    have hc45 : ¬ (c = 45) := by
      rcases hdig with ⟨hd1, _⟩; omega
    rw [hb, redisParseInt_cons_other c rest hc45, ← hcr, digitsOnlyVal_natToBytes]
    show some ((m.toNat : Nat) : Int) = some m
    exact congrArg some (by omega)

/-- Reading any key other than the one just set is unchanged. -/
lemma redisSet_ne (st : RedisState) (k : String) (v : Bytes) (q : String)
    (h : q ≠ k) : redisSet st k v q = st q := if_neg h

/-- Reading back the key just set yields the new value. -/
lemma redisSet_eq (st : RedisState) (k : String) (v : Bytes) :
    redisSet st k v k = some v := if_pos rfl

/-- The state after one `store` call, unfolded to the two backend writes it
performs: the counter increment, then the value write. -/
lemma store_snd (k : String) (v : Value) (st : RedisState) :
    (Cache.store k v st).2 = redisSet (redisIncr st storeQualname) k (encodeValue v) := rfl

/-- A `store` call leaves every key other than the fresh key and the counter
key unchanged. -/
lemma store_frame (st : RedisState) (k : String) (v : Value) (q : String)
    (h1 : q ≠ k) (h2 : q ≠ storeQualname) : (Cache.store k v st).2 q = st q := by
  rw [store_snd, redisSet_ne _ _ _ _ h1]
  exact redisSet_ne _ _ _ _ h2

/-- After a `store` call whose fresh key differs from the counter key, the
counter key holds the decimal text of the previous count plus one. -/
lemma store_counter (st : RedisState) (k : String) (v : Value)
    (h : k ≠ storeQualname) :
    (Cache.store k v st).2 storeQualname
      = some (intToBytes (currentCount st storeQualname + 1)) := by
  rw [store_snd, redisSet_ne _ _ _ _ (Ne.symm h)]
  exact redisSet_eq _ _ _

/-- A `store` call increments the counter value at the counter key by exactly
one. -/
lemma store_count (st : RedisState) (k : String) (v : Value)
    (h : k ≠ storeQualname) :
    currentCount (Cache.store k v st).2 storeQualname
      = currentCount st storeQualname + 1 := by
  have hc := store_counter st k v h
  simp only [currentCount, hc, redisParseInt_intToBytes, Option.getD_some]

/-- After a sequence of `store` calls, the counter value has grown by the
number of calls (provided no fresh key collides with the counter key). -/
lemma runStores_count (ps : List (String × Value)) : ∀ st : RedisState,
    (∀ p ∈ ps, p.1 ≠ storeQualname) →
    currentCount (runStores ps st) storeQualname
      = currentCount st storeQualname + ps.length := by
  induction ps with
  | nil => intro st _; simp [runStores]
  | cons p ps ih =>
    intro st h
    have h1 : p.1 ≠ storeQualname := h p (List.mem_cons_self _ _)
    have h2 : ∀ q ∈ ps, q.1 ≠ storeQualname := fun q hq => h q (List.mem_cons_of_mem _ hq)
    show currentCount (runStores ps (Cache.store p.1 p.2 st).2) storeQualname = _
    rw [ih _ h2, store_count st p.1 p.2 h1]
    simp only [List.length_cons]
    push_cast
    omega

/-- After a nonempty sequence of `store` calls, the counter key holds exactly
the decimal text of the previous count plus the number of calls. -/
lemma runStores_counter_bytes (ps : List (String × Value)) : ∀ st : RedisState,
    ps ≠ [] → (∀ p ∈ ps, p.1 ≠ storeQualname) →
    (runStores ps st) storeQualname
      = some (intToBytes (currentCount st storeQualname + ps.length)) := by
  induction ps with
  | nil => intro st h _; exact absurd rfl h
  | cons p ps ih =>
    intro st _ h
    have h1 : p.1 ≠ storeQualname := h p (List.mem_cons_self _ _)
    have h2 : ∀ q ∈ ps, q.1 ≠ storeQualname := fun q hq => h q (List.mem_cons_of_mem _ hq)
    by_cases hps : ps = []
    · subst hps
      show (Cache.store p.1 p.2 st).2 storeQualname = _
      rw [store_counter st p.1 p.2 h1]
      norm_num
    · show runStores ps (Cache.store p.1 p.2 st).2 storeQualname = _
      rw [ih _ hps h2, store_count st p.1 p.2 h1]
      congr 2
      simp only [List.length_cons]
      push_cast
      omega

/-- A sequence of `store` calls leaves every key that is neither one of the
fresh keys nor the counter key unchanged. -/
lemma runStores_frame (ps : List (String × Value)) : ∀ (st : RedisState) (q : String),
    q ∉ ps.map Prod.fst → q ≠ storeQualname → runStores ps st q = st q := by
  induction ps with
  | nil => intro st q _ _; rfl
  | cons p ps ih =>
    intro st q hq hcq
    simp only [List.map_cons, List.mem_cons] at hq
    push_neg at hq
    show runStores ps (Cache.store p.1 p.2 st).2 q = st q
    rw [ih _ _ hq.2 hcq]
    exact store_frame st p.1 p.2 q hq.1 hcq

/-- The backend `increment` primitive raises the counter value at its key by
exactly one. -/
lemma currentCount_redisIncr (st : RedisState) (k : String) :
    currentCount (redisIncr st k) k = currentCount st k + 1 := by
  have hc : redisIncr st k k = some (intToBytes (currentCount st k + 1)) :=
    redisSet_eq _ _ _
  simp only [currentCount, hc, redisParseInt_intToBytes, Option.getD_some]

/-- A flushed namespace holds no key. -/
lemma construct_apply (st : RedisState) (q : String) : Cache.construct st q = none := rfl

/-- The counter value of a flushed namespace is zero at every key. -/
lemma currentCount_construct (st : RedisState) (q : String) :
    currentCount (Cache.construct st) q = 0 := rfl

/-- C1: for every value of a supported type, `get` (with no decoder) on the
key returned by `store` yields exactly the bytes the backend client wrote for
it — text as UTF-8, bytes verbatim, integers and floats as their canonical
text representation — and additionally `get_str` of a stored `"hello"` returns
`"hello"` and `get_int` of a stored `42` returns `42`. -/
theorem C1_store_get_round_trip :
    (∀ (st : RedisState) (key : String) (v : Value),
      Cache.get (Cache.store key v st).2 (Cache.store key v st).1
        = some (encodeValue v))
    ∧ (∀ (st : RedisState) (key s : String),
        Cache.get (Cache.store key (Value.str s) st).2 key = some (strToBytes s))
    ∧ (∀ (st : RedisState) (key : String) (b : Bytes),
        Cache.get (Cache.store key (Value.bytes b) st).2 key = some b)
    ∧ (∀ (st : RedisState) (key : String) (n : Int),
        Cache.get (Cache.store key (Value.int n) st).2 key = some (intToBytes n))
    ∧ (∀ (st : RedisState) (key : String) (f : PyFloat),
        Cache.get (Cache.store key (Value.float f) st).2 key
          = some (strToBytes f.text))
    ∧ Cache.getStr (Cache.store "k" (Value.str "hello") initialState).2 "k"
        = Except.ok (some "hello")
    ∧ Cache.getInt (Cache.store "k" (Value.int 42) initialState).2 "k"
        = Except.ok (some 42) :=
  ⟨fun _ _ _ => redisSet_eq _ _ _,
   fun _ _ _ => redisSet_eq _ _ _,
   fun _ _ _ => redisSet_eq _ _ _,
   fun _ _ _ => redisSet_eq _ _ _,
   fun _ _ _ => redisSet_eq _ _ _,
   rfl, rfl⟩

/-- C2 counterexample: after one `store` call on a freshly constructed facade,
the backend key `"store"` holds nothing — in particular not the count 1 the
claim predicts for N = 1 — because the counter actually lives under the
method's qualified name `"Cache.store"`. -/
theorem C2_counterexample_counter_key :
    Cache.get (Cache.store "k" (Value.int 42) (Cache.construct initialState)).2 "store"
        = none
    ∧ Cache.get (Cache.store "k" (Value.int 42) (Cache.construct initialState)).2 "store"
        ≠ some (intToBytes 1)
    ∧ Cache.get (Cache.store "k" (Value.int 42) (Cache.construct initialState)).2 "Cache.store"
        = some (intToBytes 1) := by
  decide

/-- C2 amended: for every N, calling `store` N times since the
construction-time flush leaves the backend counter for the store operation —
stored under the method's qualified name `"Cache.store"`, not under
`"store"` — equal to exactly N, observable by reading that counter key
directly from the backend; and each single `store` call increments it by
exactly one.  (The fresh uuid4 key draws are assumed distinct from the
counter key, which holds of every uuid4 rendering.) -/
theorem C2_amended_store_counter (st0 : RedisState) (ps : List (String × Value))
    (h : ∀ p ∈ ps, p.1 ≠ storeQualname) :
    currentCount (runStores ps (Cache.construct st0)) storeQualname = ps.length
    ∧ (ps ≠ [] →
        (runStores ps (Cache.construct st0)) storeQualname
          = some (intToBytes ps.length))
    ∧ (∀ (st : RedisState) (k : String) (v : Value), k ≠ storeQualname →
        currentCount (Cache.store k v st).2 storeQualname
          = currentCount st storeQualname + 1) := by
  refine ⟨?_, ?_, fun st k v hk => store_count st k v hk⟩
  · rw [runStores_count ps _ h, currentCount_construct]
    omega
  · intro hne
    rw [runStores_counter_bytes ps _ hne h, currentCount_construct]
    norm_num

/-- C2 witness: two concrete `store` calls from a fresh construction leave the
`"Cache.store"` counter at exactly 2. -/
theorem C2_amended_witness :
    currentCount (runStores [("k1", Value.int 1), ("k2", Value.str "x")]
      (Cache.construct initialState)) storeQualname = 2 :=
  (C2_amended_store_counter initialState
    [("k1", Value.int 1), ("k2", Value.str "x")] (by decide)).1

/-- C3 counterexample: the counter key `"Cache.store"` is never a key produced
(returned) by `store`, yet after one `store` call `get` on it returns the
counter bytes rather than the absent sentinel. -/
theorem C3_counterexample_counter_key :
    (Cache.store "k" (Value.int 0) (Cache.construct initialState)).1 ≠ "Cache.store"
    ∧ Cache.get (Cache.store "k" (Value.int 0) (Cache.construct initialState)).2
        "Cache.store" ≠ none := by
  decide

/-- C3 amended: for every key neither produced by `store` since the last
construction-time flush nor equal to the call-counter key `"Cache.store"`,
`get` returns the absent sentinel; absence is never signalled as an error,
and this holds whether or not a decoder is supplied, so also for `get_str`
and `get_int`. -/
theorem C3_amended_unknown_key_absent (st0 : RedisState)
    (ps : List (String × Value)) (key : String)
    (h1 : key ∉ ps.map Prod.fst) (h2 : key ≠ storeQualname) :
    Cache.get (runStores ps (Cache.construct st0)) key = none
    ∧ (∀ (α : Type) (fn : Bytes → Except PyError α),
        Cache.getFn (runStores ps (Cache.construct st0)) key fn = Except.ok none)
    ∧ Cache.getStr (runStores ps (Cache.construct st0)) key = Except.ok none
    ∧ Cache.getInt (runStores ps (Cache.construct st0)) key = Except.ok none := by
  have habs : (runStores ps (Cache.construct st0)) key = none := by
    rw [runStores_frame ps _ _ h1 h2]
    rfl
  refine ⟨habs, fun α fn => ?_, ?_, ?_⟩ <;>
    simp [Cache.getStr, Cache.getInt, Cache.getFn, Cache.get, redisGet, habs]

/-- C3 witness: a concrete key that no `store` call produced reads back as
absent after one store. -/
theorem C3_amended_witness :
    Cache.get (runStores [("k", Value.int 1)] (Cache.construct initialState))
      "other" = none :=
  (C3_amended_unknown_key_absent initialState [("k", Value.int 1)] "other"
    (by decide) (by decide)).1

/-- C4: constructing a facade instance flushes the backend namespace — every
key present before construction is absent afterwards; in particular, after
constructing a second instance against the same backend, `get` on any key
stored by a prior instance returns the absent sentinel, with or without a
decoder. -/
theorem C4_construct_flushes (st : RedisState) (key k : String) (v : Value) :
    Cache.construct st key = none
    ∧ Cache.get (Cache.construct st) key = none
    ∧ Cache.get (Cache.construct ((Cache.store k v (Cache.construct st)).2)) k = none
    ∧ (∀ (α : Type) (fn : Bytes → Except PyError α),
        Cache.getFn (Cache.construct st) key fn = Except.ok none) :=
  ⟨rfl, rfl, rfl, fun _ _ => rfl⟩

/-- C5: `get_int` on the key returned by storing the float `3.14` fails with
the decoder's own error — Python's `int()` `ValueError` on the bytes
`"3.14"` — which the facade propagates unchanged instead of catching it,
wrapping it, or turning it into the absent sentinel. -/
theorem C5_get_int_float_value_error :
    Cache.getInt
        (Cache.store "k" (Value.float ⟨"3.14"⟩) (Cache.construct initialState)).2 "k"
      = Except.error PyError.valueError
    ∧ intDecoderFn (strToBytes "3.14") = Except.error PyError.valueError
    ∧ pyIntParse (strToBytes "3.14") = none :=
  ⟨rfl, rfl, rfl⟩

/-- C6: for every backend state and key, `get_str` returns exactly what `get`
returns when given the UTF-8 decoder, and `get_int` returns exactly what
`get` returns when given the integer-literal parser. -/
theorem C6_convenience_wrappers (st : RedisState) (key : String) :
    Cache.getStr st key = Cache.getFn st key utf8DecoderFn
    ∧ Cache.getInt st key = Cache.getFn st key intDecoderFn :=
  ⟨rfl, rfl⟩

/-- C7: `store` returns exactly the freshly drawn key, independently of the
value stored, so two sequential `store` calls — in particular with equal
values — return distinct keys whenever the two uuid4 draws are distinct (the
draws' freshness is the probabilistic uuid4 uniqueness the spec treats as
given; no value-based deduplication takes place). -/
theorem C7_distinct_keys (k1 k2 : String) (v1 v2 : Value) (st : RedisState)
    (h : k1 ≠ k2) :
    (Cache.store k1 v1 st).1 = k1
    ∧ (Cache.store k2 v2 (Cache.store k1 v1 st).2).1 ≠ (Cache.store k1 v1 st).1 :=
  ⟨rfl, fun he => h he.symm⟩

/-- C7 witness: two concrete sequential stores of the same value return the
two distinct drawn keys. -/
theorem C7_witness :
    (Cache.store "b" (Value.int 5) (Cache.store "a" (Value.int 5) initialState).2).1
      ≠ (Cache.store "a" (Value.int 5) initialState).1 :=
  (C7_distinct_keys "a" "b" (Value.int 5) (Value.int 5) initialState (by decide)).2

/-- C8: in every `store` call the backend command sequence is the counter
increment followed by the value write — the write never precedes the
increment — and running only the commands before the write (the state reached
if the subsequent backend write fails) already leaves the counter incremented
by one; running the whole sequence is exactly the `store` state effect. -/
theorem C8_incr_before_write (k : String) (v : Value) (st : RedisState) :
    Cache.storeOps k v
        = [BackendOp.incr storeQualname, BackendOp.set k (encodeValue v)]
    ∧ currentCount (runOps (List.take 1 (Cache.storeOps k v)) st) storeQualname
        = currentCount st storeQualname + 1
    ∧ (Cache.store k v st).2 = runOps (Cache.storeOps k v) st :=
  ⟨rfl, currentCount_redisIncr st storeQualname, rfl⟩

/-- C9: the read operations `get`, `get_str`, and `get_int` each issue a
single backend read command and nothing else, and running their commands
leaves the entire backend state unchanged — no key set, no key deleted, no
counter incremented. -/
theorem C9_reads_pure (st : RedisState) (key : String) :
    Cache.getOps key = [BackendOp.read key]
    ∧ Cache.getStrOps key = Cache.getOps key
    ∧ Cache.getIntOps key = Cache.getOps key
    ∧ runOps (Cache.getOps key) st = st
    ∧ runOps (Cache.getStrOps key) st = st
    ∧ runOps (Cache.getIntOps key) st = st :=
  ⟨rfl, rfl, rfl, rfl, rfl, rfl⟩

/-- C10: a `store` call modifies at most two backend entries — the freshly
drawn key it returns and the call-counter key — and every other key keeps its
value unchanged. -/
theorem C10_store_frame (st : RedisState) (k : String) (v : Value) (q : String)
    (h1 : q ≠ k) (h2 : q ≠ storeQualname) :
    (Cache.store k v st).2 q = st q :=
  store_frame st k v q h1 h2

/-- C10 witness: a concrete key unrelated to a `store` call keeps its value
across it. -/
theorem C10_witness :
    (Cache.store "k" (Value.int 3)
        (redisSet initialState "other" (encodeValue (Value.int 7)))).2 "other"
      = redisSet initialState "other" (encodeValue (Value.int 7)) "other" :=
  C10_store_frame (redisSet initialState "other" (encodeValue (Value.int 7)))
    "k" (Value.int 3) "other" (by decide) (by decide)

end RedisBasic
